/-
Verification of the k3s cluster provisioning program (`__main__.py`).

The development shallowly embeds the parts of the program that the claims
are about:

* the security-group ingress/egress rule set (`k3s_security_group`),
* the per-worker bootstrap payload (`make_worker_userdata`) and the loop
  that instantiates it,
* the SSH access-profile generation (`create_config_file`) and the list of
  addresses it is fed (`pulumi.Output.all(*all_ips)`),
* the resource declarations and their explicit `depends_on` edges,
* the deferred-value (future/promise) pipeline the program relies on.

The deferred-value pipeline itself lives in the external provisioning
library, not in this repository's source; it is modelled from the spec
(each such definition is marked `Modelled from the spec:`).
-/
import Mathlib

namespace K3s

/-! Security policy (`k3s_security_group`, source lines 62-121) -/

/-- One ingress/egress rule of the security group, as the source writes it:
a protocol string, a port range and a list of source CIDR blocks. -/
structure TrafficRule where
  protocol : String
  from_port : Nat
  to_port : Nat
  cidr_blocks : List String
deriving DecidableEq

/-- The ingress rule list of `k3s_security_group`, parametrised by the
subnet CIDR that the source references as `public_subnet.cidr_block`
(default `10.0.1.0/24`).  Transcribed rule for rule from source lines
66-108. -/
def k3s_ingress (subnet_cidr : String) : List TrafficRule :=
  [ { protocol := "tcp", from_port := 6443, to_port := 6443, cidr_blocks := [subnet_cidr] },
    { protocol := "udp", from_port := 8472, to_port := 8472, cidr_blocks := [subnet_cidr] },
    { protocol := "tcp", from_port := 22, to_port := 22, cidr_blocks := ["0.0.0.0/0"] },
    { protocol := "tcp", from_port := 80, to_port := 80, cidr_blocks := ["0.0.0.0/0"] },
    { protocol := "tcp", from_port := 443, to_port := 443, cidr_blocks := [subnet_cidr] },
    { protocol := "-1", from_port := 0, to_port := 0, cidr_blocks := [subnet_cidr] } ]

/-- The egress rule list of `k3s_security_group` (source lines 109-117). -/
def k3s_egress : List TrafficRule :=
  [ { protocol := "-1", from_port := 0, to_port := 0, cidr_blocks := ["0.0.0.0/0"] } ]

/-- Cloud security-group semantics of a single rule: protocol `-1` matches
every protocol and every port; otherwise the protocol must match and the
port must lie in the rule's range. -/
def ruleMatchesTraffic (r : TrafficRule) (protocol : String) (port : Nat) : Bool :=
  r.protocol == "-1" || (r.protocol == protocol && r.from_port ≤ port && port ≤ r.to_port)

/-- A rule admits a source CIDR iff that CIDR is listed in the rule. -/
def ruleAdmitsSource (r : TrafficRule) (src : String) : Bool :=
  r.cidr_blocks.contains src

/-- A rule set allows (protocol, port, source) iff some rule matches the
traffic and admits the source. -/
def policyAllows (rules : List TrafficRule) (protocol : String) (port : Nat)
    (src : String) : Bool :=
  rules.any (fun r => ruleMatchesTraffic r protocol port && ruleAdmitsSource r src)

/-- The subnet-scoped per-port rules (API 6443, VXLAN 8472, HTTPS 443)
stripped out of the ingress list, leaving the broadly-open rules and the
catch-all intra-subnet rule. -/
def ingressWithoutSubnetPortRules (subnet_cidr : String) : List TrafficRule :=
  (k3s_ingress subnet_cidr).filter
    (fun r => !(r.from_port == 6443 || r.from_port == 8472 || r.from_port == 443))

/-! Worker bootstrap payloads (`make_worker_userdata`, source lines 153-188) -/

/-- The worker bootstrap payload, transcribed from the f-string of
`make_worker_userdata(ip, index)` (source lines 157-163); the shared
`k3s_token` the Python closure captures is passed explicitly. -/
def make_worker_userdata (k3s_token ip : String) (index : Nat) : String :=
  "#!/bin/bash\n    sudo apt update\n    sudo hostnamectl set-hostname k3s-worker" ++
  toString index ++
  "\n    # Install K3s agent\n    curl -sfL https://get.k3s.io | K3S_TOKEN=\"" ++
  k3s_token ++ "\" K3S_URL=https://" ++ ip ++ ":6443 sh -s -\n    "

/-- The part of the worker payload before the hostname's ordinal index;
independent of the token, the join address and the index. -/
def worker_userdata_head : String :=
  "#!/bin/bash\n    sudo apt update\n    sudo hostnamectl set-hostname k3s-worker"

/-- The part of the worker payload after the hostname's ordinal index;
independent of the index. -/
def worker_userdata_tail (k3s_token ip : String) : String :=
  "\n    # Install K3s agent\n    curl -sfL https://get.k3s.io | K3S_TOKEN=\"" ++
  k3s_token ++ "\" K3S_URL=https://" ++ ip ++ ":6443 sh -s -\n    "

/-- The payloads produced by the worker loop
`for i in range(1, num_workers + 1)` (source lines 166-170): one payload
per ordinal `1..num_workers`, all built over the same resolved
control-plane private address `ip`. -/
def worker_userdatas (k3s_token ip : String) (num_workers : Nat) : List String :=
  (List.range num_workers).map (fun i => make_worker_userdata k3s_token ip (i + 1))

/-- `pat` occurs contiguously inside `s`. -/
def containsStr (s pat : String) : Prop :=
  ∃ a b : String, s = a ++ pat ++ b

/-! Access-profile generation (`create_config_file`, source lines 207-229) -/

/-- The host aliases `["master"] + [f"worker-{i+1}" for i in range(len(workers))]`
(source line 209). -/
def hostsList (num_workers : Nat) : List String :=
  "master" :: (List.range num_workers).map (fun i => "worker-" ++ toString (i + 1))

/-- The body of the `for idx, host in enumerate(hosts)` loop of
`create_config_file` (source lines 212-217), as a recursion carrying the
running index: four field lines — the identity-file one ending in an
embedded newline exactly as the source's f-string does — followed by the
empty separator line. -/
def config_lines_from (hosts : List String) (all_ips : List String) (idx : Nat) :
    List String :=
  match hosts with
  | [] => []
  | host :: rest =>
      ("Host " ++ host) :: ("  HostName " ++ all_ips.getD idx "") ::
      "  User ubuntu" :: "  IdentityFile ~/.ssh/k3s-cluster.id_rsa\n" :: "" ::
      config_lines_from rest all_ips (idx + 1)

/-- All lines accumulated by `create_config_file` for the fixed host list. -/
def config_lines (num_workers : Nat) (all_ips : List String) : List String :=
  config_lines_from (hostsList num_workers) all_ips 0

/-- `config_content = "\n".join(config_lines)` (source line 219). -/
def config_content (num_workers : Nat) (all_ips : List String) : String :=
  String.intercalate "\n" (config_lines num_workers all_ips)

/-- The file-system effect of `open(config_path, "w")` followed by
`write(config_content)`: the previous contents (if any) are discarded and
the file holds exactly the new content. -/
def write_config_file (_existing : Option String) (content : String) : Option String :=
  some content

/-- The five lines one host block contributes, as functions of the alias
and the address. -/
def host_entry_lines (host ip : String) : List String :=
  ["Host " ++ host, "  HostName " ++ ip, "  User ubuntu",
   "  IdentityFile ~/.ssh/k3s-cluster.id_rsa\n", ""]

/-- One host entry as it actually appears in the rendered file: four field
lines joined by newlines, the last one (the identity-file line) carrying
the extra newline embedded in the source's f-string. -/
def code_config_entry (host ip : String) : String :=
  ("Host " ++ host) ++ "\n" ++ ("  HostName " ++ ip) ++ "\n" ++
  "  User ubuntu" ++ "\n" ++ "  IdentityFile ~/.ssh/k3s-cluster.id_rsa\n"

/-- Modelled from the spec: one host entry of the access-profile rendering
described in §6 — fields alias, address, login user, identity-file path,
with no stray trailing newline. -/
def spec_config_entry (host ip : String) : String :=
  ("Host " ++ host) ++ "\n" ++ ("  HostName " ++ ip) ++ "\n" ++
  "  User ubuntu" ++ "\n" ++ "  IdentityFile ~/.ssh/k3s-cluster.id_rsa"

/-- Modelled from the spec: the full access-profile rendering described in
§6 and claim C9 — one entry per host, consecutive entries separated by
exactly one blank line. -/
def spec_config_content (hosts all_ips : List String) : String :=
  String.intercalate "\n\n"
    ((hosts.zip all_ips).map (fun p => spec_config_entry p.1 p.2))

/-! Deferred values and fan-in

The deferred-value pipeline is not part of this repository's source — the
program obtains it from the provisioning library (`Output.apply`,
`pulumi.Output.all`) — so the definitions below are modelled from the
spec's §3/§4.3 description. -/

/-- Modelled from the spec: the resolution state of the members of a
fan-in over `k` DeferredValues — one cell per member, `none` while the
member is unresolved, `some v` once it has resolved to `v`. -/
def applyEvent {α : Type} (s : List (Option α)) (e : Nat × α) : List (Option α) :=
  s.set e.1 (some e.2)

/-- Modelled from the spec: deliver a list of resolution events, in order;
the relative order of the events is the resolution timing. -/
def runEvents {α : Type} (s : List (Option α)) (es : List (Nat × α)) :
    List (Option α) :=
  es.foldl applyEvent s

/-- Every member cell has resolved. -/
def allResolved {α : Type} (s : List (Option α)) : Bool :=
  s.all Option.isSome

/-- The all-unresolved initial state of a fan-in over `k` members. -/
def initCells (α : Type) (k : Nat) : List (Option α) :=
  List.replicate k none

/-- Modelled from the spec: how many times the fan-in combinator fires
along an event trace — it fires at an event exactly when that event takes
the member set from not-all-resolved to all-resolved. -/
def fireCount {α : Type} : List (Option α) → List (Nat × α) → Nat
  | _, [] => 0
  | s, e :: es =>
      (if !allResolved s && allResolved (applyEvent s e) then 1 else 0) +
        fireCount (applyEvent s e) es

/-- Modelled from the spec: the value a fan-in produces — the ordered
collection of underlying values, available only when every member has
resolved. -/
def fanInValue {α : Type} : List (Option α) → Option (List α)
  | [] => some []
  | c :: cs => c.bind (fun v => (fanInValue cs).map (fun vs => v :: vs))

/-- Modelled from the spec: a single DeferredValue observed through its
operations — the resolved value if any, the transformations registered
while unresolved, and the transformation results fired so far. -/
structure DVState (α β : Type) where
  value : Option α
  pending : List (α → β)
  fired : List β

/-- The operations of the deferred-value pipeline: registering a pure
transformation, and resolving the value. -/
inductive DVOp (α β : Type) where
  | transform (f : α → β)
  | resolve (v : α)

/-- A fresh, unresolved DeferredValue. -/
def dvInit (α β : Type) : DVState α β :=
  { value := none, pending := [], fired := [] }

/-- Modelled from the spec (§4.3): `transform f` on a resolved value fires
`f` immediately; on an unresolved value it only registers `f`.
`resolve v` on an unresolved value transitions it to resolved and fires
every pending transformation exactly once, in registration order; on an
already-resolved value it is a loud, fatal error. -/
def dvStep {α β : Type} (s : DVState α β) : DVOp α β → Except String (DVState α β)
  | .transform f =>
      match s.value with
      | some v => .ok { s with fired := s.fired ++ [f v] }
      | none => .ok { s with pending := s.pending ++ [f] }
  | .resolve v =>
      match s.value with
      | some _ => .error "resolve called on an already-resolved DeferredValue"
      | none =>
          .ok { value := some v, pending := [],
                fired := s.fired ++ s.pending.map (fun f => f v) }

/-- Run a sequence of deferred-value operations, stopping at the first
fatal error. -/
def dvRun {α β : Type} (s : DVState α β) : List (DVOp α β) → Except String (DVState α β)
  | [] => .ok s
  | op :: ops =>
      match dvStep s op with
      | .ok s' => dvRun s' ops
      | .error e => .error e

/-! Resource declarations and creation ordering -/

/-- A resource creation request as the program declares it: a name and the
explicit `depends_on` edges attached through `ResourceOptions`. -/
structure ResourceDecl where
  name : String
  dependsOn : List String
deriving DecidableEq

/-- The control-plane instance `master-instance` (source lines 123-151):
declared with no explicit `depends_on`. -/
def master_instance_decl : ResourceDecl :=
  { name := "master-instance", dependsOn := [] }

/-- Worker instance `f"worker{i}-instance"` (source lines 172-186):
declared with `opts=pulumi.ResourceOptions(depends_on=[master_instance])`. -/
def worker_instance_decl (i : Nat) : ResourceDecl :=
  { name := "worker" ++ toString i ++ "-instance",
    dependsOn := ["master-instance"] }

/-- All compute instance declarations of a provisioning run: the
control-plane, then one worker per ordinal `1..num_workers`. -/
def cluster_instance_decls (num_workers : Nat) : List ResourceDecl :=
  master_instance_decl ::
    (List.range num_workers).map (fun i => worker_instance_decl (i + 1))

/-- Modelled from the spec: the provisioning engine honours `depends_on` —
a creation order it may issue lists every declared resource and places
each resource's declared dependencies strictly before the resource
itself. -/
def validCreationOrder (order : List String) (decls : List ResourceDecl) : Prop :=
  (∀ d ∈ decls, d.name ∈ order) ∧
  (∀ d ∈ decls, ∀ dep ∈ d.dependsOn,
      order.indexOf dep < order.indexOf d.name)

instance (order : List String) (decls : List ResourceDecl) :
    Decidable (validCreationOrder order decls) := by
  unfold validCreationOrder
  infer_instance

-- THEOREMS

/-- The worker payload splits as constant head, the ordinal index, and an
index-independent tail: two payloads for the same token and join address
differ only in the rendered index. -/
theorem make_worker_userdata_split (k3s_token ip : String) (i : Nat) :
    make_worker_userdata k3s_token ip i =
      worker_userdata_head ++ toString i ++ worker_userdata_tail k3s_token ip := by
  simp [make_worker_userdata, worker_userdata_head, worker_userdata_tail,
    String.append_assoc]

/-- Every worker payload contains the join URL built from the resolved
control-plane private address. -/
theorem make_worker_userdata_contains_url (k3s_token ip : String) (i : Nat) :
    containsStr (make_worker_userdata k3s_token ip i)
      ("K3S_URL=https://" ++ ip ++ ":6443") := by
  refine ⟨"#!/bin/bash\n    sudo apt update\n    sudo hostnamectl set-hostname k3s-worker" ++
    toString i ++
    "\n    # Install K3s agent\n    curl -sfL https://get.k3s.io | K3S_TOKEN=\"" ++
    k3s_token ++ "\" ", " sh -s -\n    ", ?_⟩
  have h1 : ("\" " ++ "K3S_URL=https://" : String) = "\" K3S_URL=https://" := rfl
  have h2 : ((":6443" : String) ++ " sh -s -\n    ") = ":6443 sh -s -\n    " := rfl
  simp only [make_worker_userdata, String.append_assoc, ← h1, ← h2]

/-- Every worker payload contains the shared cluster token in its
`K3S_TOKEN` assignment. -/
theorem make_worker_userdata_contains_token (k3s_token ip : String) (i : Nat) :
    containsStr (make_worker_userdata k3s_token ip i)
      ("K3S_TOKEN=\"" ++ k3s_token ++ "\"") := by
  refine ⟨"#!/bin/bash\n    sudo apt update\n    sudo hostnamectl set-hostname k3s-worker" ++
    toString i ++
    "\n    # Install K3s agent\n    curl -sfL https://get.k3s.io | ",
    " K3S_URL=https://" ++ ip ++ ":6443 sh -s -\n    ", ?_⟩
  have h1 : (("\n    # Install K3s agent\n    curl -sfL https://get.k3s.io | " : String) ++
      "K3S_TOKEN=\"") =
      "\n    # Install K3s agent\n    curl -sfL https://get.k3s.io | K3S_TOKEN=\"" := rfl
  have h2 : (("\"" : String) ++ " K3S_URL=https://") = "\" K3S_URL=https://" := rfl
  simp only [make_worker_userdata, String.append_assoc, ← h1, ← h2]

/-- Claim C1: for every worker count `n`, the loop produces exactly `n`
bootstrap payloads; the `i`-th payload (ordinal `i + 1`) is the constant
head, the ordinal, and an index-independent tail — so any two payloads
differ only in the hostname's ordinal suffix — and every payload embeds
the join URL `https://<control-plane-private-address>:6443` and the shared
token. -/
theorem worker_payloads_correct (k3s_token ip : String) (n : Nat) :
    (worker_userdatas k3s_token ip n).length = n ∧
    (∀ i, i < n →
        (worker_userdatas k3s_token ip n).getD i "" =
          worker_userdata_head ++ toString (i + 1) ++
            worker_userdata_tail k3s_token ip) ∧
    (∀ p ∈ worker_userdatas k3s_token ip n,
        containsStr p ("K3S_URL=https://" ++ ip ++ ":6443") ∧
        containsStr p ("K3S_TOKEN=\"" ++ k3s_token ++ "\"")) := by
  refine ⟨by simp [worker_userdatas], ?_, ?_⟩
  · intro i hi
    rw [List.getD_eq_getElem?_getD, worker_userdatas, List.getElem?_map,
      List.getElem?_range hi]
    simpa using make_worker_userdata_split k3s_token ip (i + 1)
  · intro p hp
    simp only [worker_userdatas, List.mem_map, List.mem_range] at hp
    obtain ⟨i, _, rfl⟩ := hp
    exact ⟨make_worker_userdata_contains_url k3s_token ip (i + 1),
      make_worker_userdata_contains_token k3s_token ip (i + 1)⟩

/-- Witness for C1 at the claim's own scenario: `worker_count = 2`, token
`"T"`, control-plane private address `10.0.1.5`. -/
theorem worker_payloads_correct_witness :
    (worker_userdatas "T" "10.0.1.5" 2).length = 2 ∧
    (∀ i, i < 2 →
        (worker_userdatas "T" "10.0.1.5" 2).getD i "" =
          worker_userdata_head ++ toString (i + 1) ++
            worker_userdata_tail "T" "10.0.1.5") ∧
    (∀ p ∈ worker_userdatas "T" "10.0.1.5" 2,
        containsStr p ("K3S_URL=https://" ++ "10.0.1.5" ++ ":6443") ∧
        containsStr p ("K3S_TOKEN=\"" ++ "T" ++ "\"")) :=
  worker_payloads_correct "T" "10.0.1.5" 2

/-- Claim C7: in the security policy produced for any subnet range, the
ingress rules for the control-plane API port (TCP 6443) and the overlay
data port (UDP 8472) are scoped exactly to the subnet range and, provided
the subnet range is not itself `0.0.0.0/0`, never to the open internet. -/
theorem api_overlay_rules_subnet_scoped (subnet : String)
    (h : subnet ≠ "0.0.0.0/0") :
    ∀ r ∈ k3s_ingress subnet,
      ((r.protocol = "tcp" ∧ r.from_port = 6443) ∨
       (r.protocol = "udp" ∧ r.from_port = 8472)) →
      r.cidr_blocks = [subnet] ∧ "0.0.0.0/0" ∉ r.cidr_blocks := by
  intro r hr hport
  simp only [k3s_ingress, List.mem_cons, List.not_mem_nil, or_false] at hr
  rcases hr with h1 | h1 | h1 | h1 | h1 | h1 <;> subst h1 <;>
    simp_all [List.mem_singleton, eq_comm]

/-- Witness for C7 at the source's default subnet CIDR, instantiated at
the API-server rule. -/
theorem api_overlay_rules_subnet_scoped_witness :
    ("10.0.1.0/24" : String) ≠ "0.0.0.0/0" ∧
    (({ protocol := "tcp", from_port := 6443, to_port := 6443,
        cidr_blocks := ["10.0.1.0/24"] } : TrafficRule).cidr_blocks =
          ["10.0.1.0/24"] ∧
     "0.0.0.0/0" ∉ ({ protocol := "tcp", from_port := 6443, to_port := 6443,
                      cidr_blocks := ["10.0.1.0/24"] } : TrafficRule).cidr_blocks) :=
  ⟨by decide,
   api_overlay_rules_subnet_scoped "10.0.1.0/24" (by decide)
     { protocol := "tcp", from_port := 6443, to_port := 6443,
       cidr_blocks := ["10.0.1.0/24"] }
     (by decide) (Or.inl ⟨rfl, rfl⟩)⟩

/-- Counterexample to claim C8 as stated: at the default subnet CIDR the
HTTPS (TCP 443) ingress rule is scoped to the subnet only — no ingress
rule for port 443 admits the open internet, so the application HTTPS port
is not "open more broadly than the cluster subnet". -/
theorem https_rule_not_internet_open :
    (∃ r ∈ k3s_ingress "10.0.1.0/24",
       r.protocol = "tcp" ∧ r.from_port = 443 ∧ r.cidr_blocks = ["10.0.1.0/24"]) ∧
    ¬ (∃ r ∈ k3s_ingress "10.0.1.0/24",
        r.from_port = 443 ∧ "0.0.0.0/0" ∈ r.cidr_blocks) := by
  decide

/-- Claim C8 (amended): the administrative SSH rule (TCP 22) and the HTTP
rule (TCP 80) admit the open internet `0.0.0.0/0`, while the HTTPS rule
(TCP 443) is scoped to the cluster subnet range exactly like the API
port. -/
theorem ssh_http_open_https_subnet_scoped (subnet : String) :
    (∀ r ∈ k3s_ingress subnet,
       (r.from_port = 22 ∨ r.from_port = 80) → r.cidr_blocks = ["0.0.0.0/0"]) ∧
    (∀ r ∈ k3s_ingress subnet,
       (r.protocol = "tcp" ∧ r.from_port = 443) → r.cidr_blocks = [subnet]) := by
  constructor <;>
  · intro r hr hport
    simp only [k3s_ingress, List.mem_cons, List.not_mem_nil, or_false] at hr
    rcases hr with h1 | h1 | h1 | h1 | h1 | h1 <;> subst h1 <;> simp_all

/-- Witness for the amended C8 at the source's default subnet CIDR. -/
theorem ssh_http_open_https_subnet_scoped_witness :
    (∀ r ∈ k3s_ingress "10.0.1.0/24",
       (r.from_port = 22 ∨ r.from_port = 80) → r.cidr_blocks = ["0.0.0.0/0"]) ∧
    (∀ r ∈ k3s_ingress "10.0.1.0/24",
       (r.protocol = "tcp" ∧ r.from_port = 443) → r.cidr_blocks = ["10.0.1.0/24"]) :=
  ssh_http_open_https_subnet_scoped "10.0.1.0/24"

/-- Claim C10: the ingress set always contains a catch-all rule (protocol
`-1`, ports 0-0) admitting the whole subnet, every (protocol, port) pair is
therefore allowed from any source inside the subnet, and dropping the
subnet-scoped 6443/8472/443 rules changes nothing for intra-subnet
traffic. -/
theorem catch_all_rule_subsumes_subnet_rules (subnet : String) :
    ({ protocol := "-1", from_port := 0, to_port := 0,
       cidr_blocks := [subnet] } : TrafficRule) ∈ k3s_ingress subnet ∧
    (∀ protocol port,
       policyAllows (k3s_ingress subnet) protocol port subnet = true) ∧
    (∀ protocol port,
       policyAllows (ingressWithoutSubnetPortRules subnet) protocol port subnet =
       policyAllows (k3s_ingress subnet) protocol port subnet) := by
  refine ⟨by simp [k3s_ingress], ?_, ?_⟩ <;>
    intro protocol port <;>
    simp [k3s_ingress, ingressWithoutSubnetPortRules, policyAllows,
      ruleMatchesTraffic, ruleAdmitsSource, List.filter, List.any]

/-- `String.intercalate.go` pulls a left factor of its accumulator out. -/
theorem intercalate_go_append (s : String) (t : List String) :
    ∀ acc₁ acc₂ : String,
      String.intercalate.go (acc₁ ++ acc₂) s t =
        acc₁ ++ String.intercalate.go acc₂ s t := by
  induction t with
  | nil => intro a₁ a₂; rfl
  | cons y t ih =>
      intro a₁ a₂
      show String.intercalate.go (a₁ ++ a₂ ++ s ++ y) s t =
        a₁ ++ String.intercalate.go (a₂ ++ s ++ y) s t
      rw [String.append_assoc, String.append_assoc, ih,
        ← String.append_assoc a₂ s y]

/-- Unfolding step for `String.intercalate` on a list with at least two
elements. -/
theorem intercalate_cons_cons (s x y : String) (t : List String) :
    String.intercalate s (x :: y :: t) =
      x ++ s ++ String.intercalate s (y :: t) := by
  show String.intercalate.go (x ++ s ++ y) s t =
    (x ++ s) ++ String.intercalate.go y s t
  exact intercalate_go_append s t (x ++ s) y

/-- The loop body of `create_config_file` produces exactly one
five-line block per (alias, address) pair, in host-list order. -/
theorem config_lines_from_zip :
    ∀ (hosts all_ips : List String) (idx : Nat),
      idx + hosts.length ≤ all_ips.length →
      config_lines_from hosts all_ips idx =
        (hosts.zip (all_ips.drop idx)).flatMap
          (fun p => host_entry_lines p.1 p.2) := by
  intro hosts
  induction hosts with
  | nil => intro ips idx h; simp [config_lines_from]
  | cons host rest ih =>
      intro ips idx h
      have hidx : idx < ips.length := by simp at h; omega
      have hdrop := List.drop_eq_getElem_cons hidx
      have hgetD : ips.getD idx "" = ips[idx] := List.getD_eq_getElem ips "" hidx
      rw [config_lines_from, hdrop, List.zip_cons_cons, List.flatMap_cons,
        hgetD, ih ips (idx + 1) (by simp at h ⊢; omega)]
      rfl

/-- Rendered-string shape of the loop's output: the file is the host
entries — each ending in the identity-file line's embedded newline —
joined by a further TWO newlines, plus one final newline.  Consecutive
entries are therefore separated by three consecutive newline characters,
i.e. two blank lines. -/
theorem config_content_from_structure :
    ∀ (hosts all_ips : List String) (idx : Nat),
      hosts ≠ [] →
      idx + hosts.length ≤ all_ips.length →
      String.intercalate "\n" (config_lines_from hosts all_ips idx) =
        String.intercalate "\n\n"
          ((hosts.zip (all_ips.drop idx)).map
            (fun p => code_config_entry p.1 p.2)) ++ "\n" := by
  intro hosts
  induction hosts with
  | nil => intro ips idx hne _; exact absurd rfl hne
  | cons host rest ih =>
      intro ips idx _ h
      have hidx : idx < ips.length := by simp at h; omega
      have hdrop := List.drop_eq_getElem_cons hidx
      have hgetD : ips.getD idx "" = ips[idx] := List.getD_eq_getElem ips "" hidx
      match rest with
      | [] =>
          rw [config_lines_from, config_lines_from, hdrop, hgetD]
          simp only [List.zip_cons_cons, List.zip_nil_left, List.map_cons,
            List.map_nil]
          rw [intercalate_cons_cons, intercalate_cons_cons,
            intercalate_cons_cons, intercalate_cons_cons,
            show String.intercalate "\n" [""] = "" from rfl,
            show String.intercalate "\n\n" [code_config_entry host ips[idx]] =
              code_config_entry host ips[idx] from rfl]
          simp [code_config_entry, String.append_assoc, String.append_empty]
      | host₂ :: rest₂ =>
          have hidx₂ : idx + 1 < ips.length := by simp at h; omega
          have hdrop₂ := List.drop_eq_getElem_cons hidx₂
          rw [config_lines_from, hdrop, hgetD]
          simp only [List.zip_cons_cons, List.map_cons]
          rw [intercalate_cons_cons, intercalate_cons_cons,
            intercalate_cons_cons, intercalate_cons_cons]
          rw [show config_lines_from (host₂ :: rest₂) ips (idx + 1) =
                ("Host " ++ host₂) :: ("  HostName " ++ ips.getD (idx + 1) "") ::
                "  User ubuntu" :: "  IdentityFile ~/.ssh/k3s-cluster.id_rsa\n" ::
                "" :: config_lines_from rest₂ ips (idx + 1 + 1) from rfl]
          rw [intercalate_cons_cons]
          rw [show ("Host " ++ host₂) :: ("  HostName " ++ ips.getD (idx + 1) "") ::
                "  User ubuntu" :: "  IdentityFile ~/.ssh/k3s-cluster.id_rsa\n" ::
                "" :: config_lines_from rest₂ ips (idx + 1 + 1) =
                config_lines_from (host₂ :: rest₂) ips (idx + 1) from rfl]
          rw [ih ips (idx + 1) (by simp) (by simp at h ⊢; omega)]
          rw [hdrop₂, List.zip_cons_cons, List.map_cons, intercalate_cons_cons]
          have hnl : (("\n" : String) ++ "\n") = "\n\n" := rfl
          simp only [code_config_entry, String.append_assoc, String.empty_append,
            ← hnl]

/-- Claim C9 (amended): for a resolved address list of matching length the
generated file is one four-field entry per host — alias, address, login
user, identity-file path — but consecutive entries are separated by TWO
blank lines, not one (each entry's identity-file line carries a trailing
newline embedded in the source f-string, followed by the empty separator
line); the write itself replaces the file in full, so identical resolved
inputs yield an identical file. -/
theorem config_content_entries_two_blank_lines (n : Nat) (all_ips : List String)
    (h : all_ips.length = n + 1) :
    config_content n all_ips =
      String.intercalate "\n\n"
        (((hostsList n).zip all_ips).map (fun p => code_config_entry p.1 p.2)) ++
        "\n" ∧
    (∀ existing : Option String,
        write_config_file existing (config_content n all_ips) =
          some (config_content n all_ips)) := by
  refine ⟨?_, fun _ => rfl⟩
  have hlen : (0 : Nat) + (hostsList n).length ≤ all_ips.length := by
    simp [hostsList, h]
  have := config_content_from_structure (hostsList n) all_ips 0
    (by simp [hostsList]) hlen
  simpa [config_content, config_lines] using this

set_option maxRecDepth 20000 in
/-- Witness for the amended C9 on a concrete one-worker address list. -/
theorem config_content_entries_two_blank_lines_witness :
    (["10.0.1.5", "54.12.0.7"] : List String).length = 1 + 1 ∧
    (config_content 1 ["10.0.1.5", "54.12.0.7"] =
      String.intercalate "\n\n"
        (((hostsList 1).zip ["10.0.1.5", "54.12.0.7"]).map
          (fun p => code_config_entry p.1 p.2)) ++ "\n" ∧
    (∀ existing : Option String,
        write_config_file existing (config_content 1 ["10.0.1.5", "54.12.0.7"]) =
          some (config_content 1 ["10.0.1.5", "54.12.0.7"]))) :=
  ⟨by decide,
   config_content_entries_two_blank_lines 1 ["10.0.1.5", "54.12.0.7"] (by decide)⟩

set_option maxRecDepth 20000 in
/-- Counterexample to claim C9 as stated: on a concrete resolved input the
generated file contains three consecutive newlines — two blank lines
between the control-plane entry and the worker-1 entry — and differs from
the spec's rendering with exactly one blank line between entries. -/
theorem config_blank_line_counterexample :
    containsStr (config_content 1 ["10.0.1.5", "54.12.0.7"]) "\n\n\n" ∧
    config_content 1 ["10.0.1.5", "54.12.0.7"] ≠
      spec_config_content (hostsList 1) ["10.0.1.5", "54.12.0.7"] := by
  refine ⟨⟨"Host master\n  HostName 10.0.1.5\n  User ubuntu\n  IdentityFile ~/.ssh/k3s-cluster.id_rsa",
    "Host worker-1\n  HostName 54.12.0.7\n  User ubuntu\n  IdentityFile ~/.ssh/k3s-cluster.id_rsa\n\n",
    by decide⟩, by decide⟩

/-- Delivering one event never unresolves a resolved member set. -/
theorem allResolved_applyEvent {α : Type} {s : List (Option α)} (e : Nat × α)
    (h : allResolved s = true) : allResolved (applyEvent s e) = true := by
  simp only [allResolved, List.all_eq_true] at h ⊢
  intro x hx
  rcases List.mem_or_eq_of_mem_set hx with hx' | rfl
  · exact h x hx'
  · rfl

/-- Delivering any events never unresolves a resolved member set. -/
theorem allResolved_runEvents {α : Type} :
    ∀ (es : List (Nat × α)) (s : List (Option α)),
      allResolved s = true → allResolved (runEvents s es) = true := by
  intro es
  induction es with
  | nil => intro s h; exact h
  | cons e es ih => intro s h; exact ih _ (allResolved_applyEvent e h)

/-- Event delivery preserves the number of member cells. -/
theorem runEvents_length {α : Type} :
    ∀ (es : List (Nat × α)) (s : List (Option α)),
      (runEvents s es).length = s.length := by
  intro es
  induction es with
  | nil => intro s; rfl
  | cons e es ih =>
      intro s
      rw [show runEvents s (e :: es) = runEvents (applyEvent s e) es from rfl,
        ih, applyEvent, List.length_set]

/-- Crossing lemma: along any trace the fan-in fires exactly once if the
trace takes the members from not-all-resolved to all-resolved, and never
otherwise. -/
theorem fireCount_eq {α : Type} :
    ∀ (es : List (Nat × α)) (s : List (Option α)),
      fireCount s es =
        if allResolved s then 0
        else if allResolved (runEvents s es) then 1 else 0 := by
  intro es
  induction es with
  | nil => intro s; by_cases h : allResolved s <;> simp [fireCount, runEvents, h]
  | cons e es ih =>
      intro s
      rw [fireCount, ih (applyEvent s e),
        show runEvents s (e :: es) = runEvents (applyEvent s e) es from rfl]
      by_cases hs : allResolved s
      · have hs' := allResolved_applyEvent e hs
        have hrun := allResolved_runEvents es _ hs'
        simp [hs, hs', hrun]
      · by_cases hs' : allResolved (applyEvent s e)
        · have hrun := allResolved_runEvents es _ hs'
          simp [hs, hs', hrun]
        · simp [hs, hs']

/-- A member already resolved stays resolved through event delivery. -/
theorem resolved_runEvents_of_resolved {α : Type} :
    ∀ (es : List (Nat × α)) (s : List (Option α)) (i : Nat),
      (∃ v, s[i]? = some (some v)) →
      ∃ v, (runEvents s es)[i]? = some (some v) := by
  intro es
  induction es with
  | nil => intro s i h; exact h
  | cons e es ih =>
      intro s i h
      obtain ⟨v, hv⟩ := h
      refine ih (applyEvent s e) i ?_
      by_cases hei : e.1 = i
      · subst hei
        have hlen : e.1 < s.length := by
          by_contra hge
          rw [List.getElem?_eq_none (Nat.le_of_not_lt hge)] at hv
          exact Option.noConfusion hv
        exact ⟨e.2, by simp [applyEvent, List.getElem?_set_self hlen]⟩
      · exact ⟨v, by rwa [applyEvent, List.getElem?_set_ne hei]⟩

/-- A member whose index occurs among the delivered events is resolved
afterwards. -/
theorem resolved_of_mem_events {α : Type} :
    ∀ (es : List (Nat × α)) (s : List (Option α)) (i : Nat),
      i < s.length → i ∈ es.map Prod.fst →
      ∃ v, (runEvents s es)[i]? = some (some v) := by
  intro es
  induction es with
  | nil => intro s i _ h; simp at h
  | cons e es ih =>
      intro s i hlen hmem
      rw [List.map_cons, List.mem_cons] at hmem
      rcases hmem with hmem | hmem
      · refine resolved_runEvents_of_resolved es (applyEvent s e) i ?_
        refine ⟨e.2, ?_⟩
        rw [applyEvent, ← hmem]
        exact List.getElem?_set_self (hmem ▸ hlen)
      · exact ih (applyEvent s e) i (by simpa [applyEvent] using hlen) hmem

/-- A member set is all-resolved iff every cell holds a value. -/
theorem allResolved_of_forall {α : Type} (s : List (Option α))
    (h : ∀ i, i < s.length → ∃ v, s[i]? = some (some v)) :
    allResolved s = true := by
  simp only [allResolved, List.all_eq_true]
  intro x hx
  obtain ⟨i, hi, rfl⟩ := List.mem_iff_getElem.mp hx
  obtain ⟨v, hv⟩ := h i hi
  rw [List.getElem?_eq_getElem hi] at hv
  simp [Option.some.inj hv]

/-- With at least one member, the initial fan-in state is not resolved. -/
theorem initCells_not_allResolved {α : Type} (k : Nat) (hk : 0 < k) :
    allResolved (initCells α k) = false := by
  have hmem : (none : Option α) ∈ initCells α k :=
    List.mem_replicate.mpr ⟨Nat.pos_iff_ne_zero.mp hk, rfl⟩
  cases hb : allResolved (initCells α k) with
  | false => rfl
  | true =>
      have := List.all_eq_true.mp (by simpa [allResolved] using hb) none hmem
      simp at this

/-- Claim C4: over `k ≥ 1` DeferredValues, for every resolution order
that resolves each member exactly once, the fan-in fires exactly once; it
is all-resolved at the end; and along every trace position it has fired
exactly once when the members are all resolved and zero times otherwise —
it never fires after only a proper subset has resolved, even if one
member resolves arbitrarily later than the others. -/
theorem fan_in_fires_exactly_once {α : Type} (k : Nat) (hk : 0 < k)
    (es : List (Nat × α)) (hcomp : (es.map Prod.fst).Perm (List.range k))
    (m : Nat) :
    fireCount (initCells α k) es = 1 ∧
    allResolved (runEvents (initCells α k) es) = true ∧
    fireCount (initCells α k) (es.take m) =
      (if allResolved (runEvents (initCells α k) (es.take m)) then 1 else 0) := by
  have hinit := initCells_not_allResolved (α := α) k hk
  have hfinal : allResolved (runEvents (initCells α k) es) = true := by
    refine allResolved_of_forall _ (fun i hi => ?_)
    rw [runEvents_length] at hi
    have hik : i < k := by simpa [initCells] using hi
    refine resolved_of_mem_events es (initCells α k) i
      (by simpa [initCells] using hik) ?_
    exact hcomp.mem_iff.mpr (List.mem_range.mpr hik)
  refine ⟨?_, hfinal, ?_⟩
  · rw [fireCount_eq, hinit, hfinal]; simp
  · rw [fireCount_eq, hinit]; simp

/-- Witness for C4: two members, the second-declared member resolving
first. -/
theorem fan_in_fires_exactly_once_witness :
    (0 < 2 ∧
      (([((1 : Nat), "b"), ((0 : Nat), "a")].map Prod.fst).Perm (List.range 2))) ∧
    (fireCount (initCells String 2) [(1, "b"), (0, "a")] = 1 ∧
     allResolved (runEvents (initCells String 2) [(1, "b"), (0, "a")]) = true ∧
     fireCount (initCells String 2) ([(1, "b"), (0, "a")].take 1) =
       (if allResolved (runEvents (initCells String 2)
           ([(1, "b"), (0, "a")].take 1)) then 1 else 0)) :=
  ⟨⟨by decide, by decide⟩,
   fan_in_fires_exactly_once 2 (by decide) [(1, "b"), (0, "a")] (by decide) 1⟩

/-- Events for other member indices leave a cell untouched. -/
theorem runEvents_getElem?_of_not_mem {α : Type} :
    ∀ (es : List (Nat × α)) (s : List (Option α)) (i : Nat),
      i ∉ es.map Prod.fst → (runEvents s es)[i]? = s[i]? := by
  intro es
  induction es with
  | nil => intro s i _; rfl
  | cons e es ih =>
      intro s i h
      rw [List.map_cons, List.mem_cons] at h
      push_neg at h
      rw [show runEvents s (e :: es) = runEvents (applyEvent s e) es from rfl,
        ih _ _ h.2, applyEvent, List.getElem?_set_ne (Ne.symm h.1)]

/-- Delivering a complete set of resolution events — one per member, in
any relative order — always ends in the same fully-resolved state: the
ordered values by member index, independent of resolution timing. -/
theorem runEvents_complete {α : Type} (k : Nat) (f : Nat → α)
    (es : List (Nat × α))
    (h : es.Perm ((List.range k).map (fun i => (i, f i)))) :
    runEvents (initCells α k) es =
      (List.range k).map (fun i => some (f i)) := by
  have hfst : (es.map Prod.fst).Perm (List.range k) := by
    have hm := h.map Prod.fst
    simpa [List.map_map, Function.comp_def] using hm
  have hnodup : (es.map Prod.fst).Nodup :=
    hfst.symm.nodup (List.nodup_range k)
  refine List.ext_getElem? (fun i => ?_)
  by_cases hik : i < k
  · have hmem : (i, f i) ∈ es :=
      h.mem_iff.mpr (List.mem_map.mpr ⟨i, List.mem_range.mpr hik, rfl⟩)
    obtain ⟨es1, es2, rfl⟩ := List.append_of_mem hmem
    have hnotin : i ∉ es2.map Prod.fst := by
      have h2 : (es1.map Prod.fst ++ i :: es2.map Prod.fst).Nodup := by
        simpa [List.map_append] using hnodup
      exact (List.nodup_cons.mp h2.of_append_right).1
    rw [show runEvents (initCells α k) (es1 ++ (i, f i) :: es2) =
          runEvents (applyEvent (runEvents (initCells α k) es1) (i, f i)) es2 from by
        simp [runEvents, List.foldl_append],
      runEvents_getElem?_of_not_mem es2 _ i hnotin]
    have hlen : i < (runEvents (initCells α k) es1).length := by
      rw [runEvents_length]; simpa [initCells] using hik
    rw [applyEvent, List.getElem?_set_self hlen, List.getElem?_map,
      List.getElem?_range hik]
    rfl
  · have hge : k ≤ i := Nat.le_of_not_lt hik
    rw [List.getElem?_eq_none (by rw [runEvents_length]; simpa [initCells] using hge),
      List.getElem?_eq_none (by simpa using hge)]

/-- A fan-in over all-resolved members yields exactly the ordered
values. -/
theorem fanInValue_map_some {α : Type} : ∀ l : List α,
    fanInValue (l.map some) = some l := by
  intro l
  induction l with
  | nil => rfl
  | cons a l ih => simp [fanInValue, ih]

/-- Claim C2: for every resolution order of the `n + 1` public-address
DeferredValues, the fan-in yields the same address list — ordered by
member index, control-plane at index 0 — and the generated file renders
one host block per alias in the fixed order of `hostsList`:
`master` (the control-plane) first, then `worker-1` … `worker-n` by
ordinal.  The host order is a function of the resolved addresses only,
never of resolution timing. -/
theorem access_profile_order_fixed (n : Nat) (addr : Nat → String)
    (es : List (Nat × String))
    (hes : es.Perm ((List.range (n + 1)).map (fun i => (i, addr i)))) :
    fanInValue (runEvents (initCells String (n + 1)) es) =
      some ((List.range (n + 1)).map addr) ∧
    config_lines n ((List.range (n + 1)).map addr) =
      ((hostsList n).zip ((List.range (n + 1)).map addr)).flatMap
        (fun p => host_entry_lines p.1 p.2) ∧
    hostsList n =
      "master" :: (List.range n).map (fun i => "worker-" ++ toString (i + 1)) := by
  refine ⟨?_, ?_, rfl⟩
  · rw [runEvents_complete (n + 1) addr es hes,
      show (List.range (n + 1)).map (fun i => some (addr i)) =
        ((List.range (n + 1)).map addr).map some from by simp [List.map_map],
      fanInValue_map_some]
  · rw [config_lines,
      config_lines_from_zip (hostsList n) _ 0 (by simp [hostsList]),
      List.drop_zero]

/-- Witness for C2: one worker, with the worker's address resolving before
the control-plane's. -/
theorem access_profile_order_fixed_witness :
    (([((1 : Nat), "54.12.0.7"), ((0 : Nat), "10.0.1.5")]).Perm
        ((List.range (1 + 1)).map
          (fun i => (i, (["10.0.1.5", "54.12.0.7"].getD i ""))))) ∧
    (fanInValue (runEvents (initCells String (1 + 1))
        [(1, "54.12.0.7"), (0, "10.0.1.5")]) =
      some ((List.range (1 + 1)).map (fun i => ["10.0.1.5", "54.12.0.7"].getD i "")) ∧
    config_lines 1 ((List.range (1 + 1)).map
        (fun i => ["10.0.1.5", "54.12.0.7"].getD i "")) =
      ((hostsList 1).zip ((List.range (1 + 1)).map
          (fun i => ["10.0.1.5", "54.12.0.7"].getD i ""))).flatMap
        (fun p => host_entry_lines p.1 p.2) ∧
    hostsList 1 =
      "master" :: (List.range 1).map (fun i => "worker-" ++ toString (i + 1))) :=
  ⟨by decide,
   access_profile_order_fixed 1 (fun i => ["10.0.1.5", "54.12.0.7"].getD i "")
     [(1, "54.12.0.7"), (0, "10.0.1.5")] (by decide)⟩

/-- Claim C5: registering a pure transformation before resolution and
registering it after resolution fire it exactly once either way and
produce the same resulting value; after resolution it fires at the
registration step itself, with no suspension. -/
theorem transform_before_and_after_resolution_agree {α β : Type}
    (f : α → β) (v : α) :
    dvRun (dvInit α β) [DVOp.transform f, DVOp.resolve v] =
      Except.ok { value := some v, pending := [], fired := [f v] } ∧
    dvRun (dvInit α β) [DVOp.resolve v, DVOp.transform f] =
      Except.ok { value := some v, pending := [], fired := [f v] } ∧
    dvStep { value := some v, pending := [], fired := [] } (DVOp.transform f) =
      Except.ok { value := some v, pending := [], fired := [f v] } :=
  ⟨rfl, rfl, rfl⟩

/-- Claim C6: a DeferredValue is single-assignment — `resolve` turns the
unresolved initial state into a resolved one; `resolve` on an
already-resolved value is a loud fatal error, not a silent no-op; and no
successful operation ever changes a resolved value. -/
theorem resolve_single_assignment {α β : Type} (s : DVState α β) (v w u : α)
    (h : s.value = some v) :
    dvStep s (DVOp.resolve w) =
      Except.error "resolve called on an already-resolved DeferredValue" ∧
    (∀ op s', dvStep s op = Except.ok s' → s'.value = some v) ∧
    dvStep (dvInit α β) (DVOp.resolve u) =
      Except.ok { value := some u, pending := [], fired := [] } := by
  refine ⟨by simp [dvStep, h], ?_, rfl⟩
  intro op s' hop
  cases op with
  | transform f =>
      simp only [dvStep, h] at hop
      have h2 := Except.ok.inj hop
      simp [← h2]
  | resolve w' =>
      simp [dvStep, h] at hop

/-- Witness for C6 on a concrete resolved deferred value. -/
theorem resolve_single_assignment_witness :
    (({ value := some 1, pending := [], fired := [] } : DVState Nat Nat).value =
        some 1) ∧
    (dvStep ({ value := some 1, pending := [], fired := [] } : DVState Nat Nat)
        (DVOp.resolve 2) =
      Except.error "resolve called on an already-resolved DeferredValue" ∧
     (∀ op s',
        dvStep ({ value := some 1, pending := [], fired := [] } : DVState Nat Nat)
            op = Except.ok s' →
          s'.value = some 1) ∧
     dvStep (dvInit Nat Nat) (DVOp.resolve 3) =
      Except.ok { value := some 3, pending := [], fired := [] }) :=
  ⟨rfl, resolve_single_assignment _ 1 2 3 rfl⟩

/-- Claim C3: every worker declaration carries the explicit
`depends_on = [master_instance]` edge — independently of the payload's
deferred-value dependency — and therefore, in every creation order the
engine may issue while honouring `depends_on`, the control-plane's
creation request comes strictly before every worker's. -/
theorem workers_created_after_master (n : Nat) (order : List String)
    (hvalid : validCreationOrder order (cluster_instance_decls n)) :
    (∀ d ∈ cluster_instance_decls n, d ≠ master_instance_decl →
        "master-instance" ∈ d.dependsOn) ∧
    (∀ i, i < n →
        worker_instance_decl (i + 1) ∈ cluster_instance_decls n ∧
        "master-instance" ∈ (worker_instance_decl (i + 1)).dependsOn ∧
        order.indexOf "master-instance" <
          order.indexOf (worker_instance_decl (i + 1)).name) := by
  constructor
  · intro d hd hne
    rcases List.mem_cons.mp hd with rfl | hd
    · exact absurd rfl hne
    · obtain ⟨i, _, rfl⟩ := List.mem_map.mp hd
      simp [worker_instance_decl]
  · intro i hi
    have hmem : worker_instance_decl (i + 1) ∈ cluster_instance_decls n :=
      List.mem_cons_of_mem _ (List.mem_map.mpr ⟨i, List.mem_range.mpr hi, rfl⟩)
    refine ⟨hmem, by simp [worker_instance_decl], ?_⟩
    exact hvalid.2 _ hmem "master-instance" (by simp [worker_instance_decl])

/-- Witness for C3: two workers and the creation order the engine issues
when nothing else constrains it. -/
theorem workers_created_after_master_witness :
    validCreationOrder ["master-instance", "worker1-instance", "worker2-instance"]
      (cluster_instance_decls 2) ∧
    ((∀ d ∈ cluster_instance_decls 2, d ≠ master_instance_decl →
        "master-instance" ∈ d.dependsOn) ∧
     (∀ i, i < 2 →
        worker_instance_decl (i + 1) ∈ cluster_instance_decls 2 ∧
        "master-instance" ∈ (worker_instance_decl (i + 1)).dependsOn ∧
        (["master-instance", "worker1-instance", "worker2-instance"] : List String).indexOf
            "master-instance" <
          (["master-instance", "worker1-instance", "worker2-instance"] : List String).indexOf
            (worker_instance_decl (i + 1)).name)) :=
  ⟨by decide,
   workers_created_after_master 2
     ["master-instance", "worker1-instance", "worker2-instance"] (by decide)⟩

end K3s
